import Mathlib

/-!
Verification of the extra-account-meta resolution pipeline of the SPL
token transfer-hook JS library (`extensions/transferHook/*`).

The TypeScript source is shallowly embedded:
* `Uint8Array` / `Buffer` values become `List Nat` of byte values;
* `PublicKey` values become their 32 raw bytes, again `List Nat`;
* the external collaborators `unpackSeeds` (seed specification provider)
  and `PublicKey.findProgramAddressSync` (address derivation oracle) are
  taken as explicit function parameters, since only their input/output
  contract is part of the material being verified;
* a thrown `TokenTransferHookAccountNotFound` becomes
  `Except.error ResolveError.accountNotFound`; the JavaScript `TypeError`
  raised by reading `.pubkey` of `undefined` (an out-of-range or negative
  array index) becomes `Except.error ResolveError.typeError`.
-/

namespace SplTransferHook

/-- A byte buffer (`Buffer` / `Uint8Array`): a list of byte values. -/
abbrev Bytes := List Nat

/-- A `PublicKey`, identified with its 32 raw bytes. -/
abbrev PubKey := List Nat

/-- `ExtraAccountMeta` as stored by the transfer hook program
(interface `ExtraAccountMeta` in the source). -/
structure ExtraAccountMeta where
  discriminator : Nat
  addressConfig : Bytes
  isSigner : Bool
  isWritable : Bool
  deriving DecidableEq, Repr

/-- `AccountMeta` from `@solana/web3.js`: a resolved account reference. -/
structure AccountMeta where
  pubkey : PubKey
  isSigner : Bool
  isWritable : Bool
  deriving DecidableEq, Repr

/-- `ExtraAccountMetaList`: a `u32` count plus a list of metas. -/
structure ExtraAccountMetaList where
  count : Nat
  extraAccounts : List ExtraAccountMeta
  deriving DecidableEq, Repr

/-- Failure modes of `resolveExtraAccountMeta`:
`accountNotFound` is the thrown `TokenTransferHookAccountNotFound`;
`typeError` is the JavaScript `TypeError` raised when the code reads
`.pubkey` of `undefined` after indexing the array out of range. -/
inductive ResolveError where
  | accountNotFound
  | typeError
  deriving DecidableEq, Repr

/-! ## Layout codec

`ExtraAccountMetaLayout = struct([u8 discriminator, blob 32 addressConfig,
bool isSigner, bool isWritable])` and
`ExtraAccountMetaListLayout = struct([u32 count, seq(ExtraAccountMetaLayout,
greedy(span), extraAccounts)])`, from `@solana/buffer-layout`.
-/

/-- Span of one encoded `ExtraAccountMeta` (`ExtraAccountMetaLayout.span`). -/
def extraAccountMetaSpan : Nat := 35

/-- Decode one `ExtraAccountMeta` from the first 35 bytes of `b`:
byte 0 is the `u8` discriminator, bytes 1..32 the 32-byte `addressConfig`
blob, byte 33 the `isSigner` bool and byte 34 the `isWritable` bool
(`bool` from `@solana/buffer-layout-utils` decodes any nonzero byte as
`true`). -/
def ExtraAccountMetaLayout.decode (b : Bytes) : ExtraAccountMeta where
  discriminator := b.getD 0 0
  addressConfig := (b.drop 1).take 32
  isSigner := b.getD 33 0 != 0
  isWritable := b.getD 34 0 != 0

/-- Encode one `ExtraAccountMeta` in layout order: discriminator byte,
32-byte address config, signer byte, writable byte (`bool` encodes
`true` as 1 and `false` as 0). -/
def ExtraAccountMetaLayout.encode (m : ExtraAccountMeta) : Bytes :=
  m.discriminator :: (m.addressConfig ++
    [if m.isSigner then 1 else 0, if m.isWritable then 1 else 0])

/-- Little-endian `u32` decode at offset 0; `none` when fewer than 4 bytes
remain (a real `Buffer.readUInt32LE` throws out of range there). -/
def decodeU32LE (b : Bytes) : Option Nat :=
  if 4 ≤ b.length then
    some (b.getD 0 0 + b.getD 1 0 * 256 + b.getD 2 0 * 65536 +
      b.getD 3 0 * 16777216)
  else none

/-- Little-endian `u32` encode (`Buffer.writeUInt32LE`). -/
def encodeU32LE (n : Nat) : Bytes :=
  [n % 256, n / 256 % 256, n / 65536 % 256, n / 16777216 % 256]

/-- `seq(ExtraAccountMetaLayout, greedy(35))` decoding: as many whole
35-byte entries as fit in the buffer; a trailing run of fewer than 35
bytes is ignored. -/
def decodeSeqGreedy (b : Bytes) : List ExtraAccountMeta :=
  if h : extraAccountMetaSpan ≤ b.length then
    ExtraAccountMetaLayout.decode (b.take extraAccountMetaSpan) ::
      decodeSeqGreedy (b.drop extraAccountMetaSpan)
  else []
  termination_by b.length
  decreasing_by
    simp only [List.length_drop, extraAccountMetaSpan] at h ⊢
    omega

/-- `ExtraAccountMetaListLayout.decode`: a little-endian `u32` count then
a greedy sequence of whole 35-byte entries over the remaining bytes. -/
def ExtraAccountMetaListLayout.decode (data : Bytes) :
    Option ExtraAccountMetaList :=
  match decodeU32LE data with
  | none => none
  | some c => some ⟨c, decodeSeqGreedy (data.drop 4)⟩

/-- `ExtraAccountMetaListLayout.encode`: the `count` field encoded as a
little-endian `u32` followed by each meta in order. -/
def ExtraAccountMetaListLayout.encode (l : ExtraAccountMetaList) : Bytes :=
  encodeU32LE l.count ++ (l.extraAccounts.map ExtraAccountMetaLayout.encode).flatten

/-- A descriptor whose fields fit the layout: a `u8` discriminator,
exactly 32 config bytes, each a byte value. -/
def ExtraAccountMeta.wellFormed (m : ExtraAccountMeta) : Prop :=
  m.discriminator < 256 ∧ m.addressConfig.length = 32 ∧
    ∀ x ∈ m.addressConfig, x < 256

instance (m : ExtraAccountMeta) : Decidable m.wellFormed := by
  unfold ExtraAccountMeta.wellFormed
  infer_instance

/-- An in-memory list whose count fits a `u32` and whose descriptors are
all well-formed. -/
def ExtraAccountMetaList.wellFormed (l : ExtraAccountMetaList) : Prop :=
  l.count < 4294967296 ∧ ∀ m ∈ l.extraAccounts, m.wellFormed

instance (l : ExtraAccountMetaList) : Decidable l.wellFormed := by
  unfold ExtraAccountMetaList.wellFormed
  infer_instance

/-! ## Resolution engine and config-account addressor -/

/-- The seed specification provider `unpackSeeds(addressConfig,
previousMetas, instructionData)`: an external collaborator, modelled as a
function parameter. -/
abbrev SeedProvider := Bytes → List AccountMeta → Bytes → List Bytes

/-- The address derivation oracle
`PublicKey.findProgramAddressSync(seeds, programId)[0]`: an external
collaborator, modelled as a function parameter. -/
abbrev AddressOracle := List Bytes → PubKey → PubKey

/-- JavaScript bracket indexing `arr[i]` on an array with a possibly
negative `number` index: `undefined` (here `none`) outside `0..length-1`. -/
def jsIndex (l : List AccountMeta) (i : Int) : Option AccountMeta :=
  if i < 0 then none else l[i.toNat]?

/-- `PublicKey.default`: the all-zero key. -/
def PublicKey.default : PubKey := List.replicate 32 0

/-- The seed tag built by `Buffer.from` applied to the string literal
extra-account-metas: the UTF-8 bytes of that literal. -/
def extraAccountMetasSeed : Bytes :=
  [101, 120, 116, 114, 97, 45, 97, 99, 99, 111, 117, 110, 116, 45,
    109, 101, 116, 97, 115]

/-- `getExtraAccountMetaAccount(programId, mint)`: derive the address of
the account holding the extra account metas for `mint` under the hook
program, from the fixed tag and the mint bytes. -/
def getExtraAccountMetaAccount (findProgramAddressSync : AddressOracle)
    (programId : PubKey) (mint : PubKey) : PubKey :=
  findProgramAddressSync [extraAccountMetasSeed, mint] programId

/-- `resolveExtraAccountMeta(extraMeta, previousMetas, instructionData,
transferHookProgramId)`, line by line from the source:
* discriminator 0: the address is `new PublicKey(extraMeta.addressConfig)`
  (its raw 32 bytes), flags copied through;
* discriminator 1: derive under `transferHookProgramId`;
* otherwise `accountIndex = discriminator - (1 << 7)`; when
  `previousMetas.length <= accountIndex` throw
  `TokenTransferHookAccountNotFound`; else take
  `previousMetas[accountIndex].pubkey` as the owning program (a negative
  `accountIndex` indexes to `undefined` and reading `.pubkey` raises a
  `TypeError`);
* in the derived cases the address is
  `findProgramAddressSync(unpackSeeds(addressConfig, previousMetas,
  instructionData), programId)[0]`, flags copied through. -/
def resolveExtraAccountMeta (unpackSeeds : SeedProvider)
    (findProgramAddressSync : AddressOracle) (extraMeta : ExtraAccountMeta)
    (previousMetas : List AccountMeta) (instructionData : Bytes)
    (transferHookProgramId : PubKey) : Except ResolveError AccountMeta :=
  if extraMeta.discriminator = 0 then
    .ok { pubkey := extraMeta.addressConfig,
          isSigner := extraMeta.isSigner,
          isWritable := extraMeta.isWritable }
  else
    let ownerStep : Except ResolveError PubKey :=
      if extraMeta.discriminator = 1 then
        .ok transferHookProgramId
      else
        let accountIndex : Int := (extraMeta.discriminator : Int) - (1 <<< 7)
        if (previousMetas.length : Int) ≤ accountIndex then
          .error .accountNotFound
        else
          match jsIndex previousMetas accountIndex with
          | none => .error .typeError
          | some meta => .ok meta.pubkey
    match ownerStep with
    | .error e => .error e
    | .ok programId =>
      let seeds := unpackSeeds extraMeta.addressConfig previousMetas
        instructionData
      let pubkey := findProgramAddressSync seeds programId
      .ok { pubkey := pubkey,
            isSigner := extraMeta.isSigner,
            isWritable := extraMeta.isWritable }

/-! ## Heap-effect view of `resolveExtraAccountMeta`

`previousMetas` is a mutable JavaScript array; to state that the function
never writes to it, the body is re-embedded in state-passing style: every
primitive operation on the array consumes the current array state and
returns it alongside its value. The source only ever reads (`.length`,
`[accountIndex]`) and passes the reference to the pure external
collaborator `unpackSeeds`, so each operation returns the state it was
given. -/

/-- Reading `.length`: returns the length and the (unchanged) array. -/
def readLength (a : List AccountMeta) : Nat × List AccountMeta :=
  (a.length, a)

/-- Reading `arr[i]`: returns the element (or `undefined`) and the
(unchanged) array. -/
def readIndex (a : List AccountMeta) (i : Int) :
    Option AccountMeta × List AccountMeta :=
  (jsIndex a i, a)

/-- State-passing embedding of `resolveExtraAccountMeta`: the result is
paired with the state of the `previousMetas` array after the call. -/
def resolveExtraAccountMetaSt (unpackSeeds : SeedProvider)
    (findProgramAddressSync : AddressOracle) (extraMeta : ExtraAccountMeta)
    (previousMetas : List AccountMeta) (instructionData : Bytes)
    (transferHookProgramId : PubKey) :
    Except ResolveError AccountMeta × List AccountMeta :=
  if extraMeta.discriminator = 0 then
    (.ok { pubkey := extraMeta.addressConfig,
           isSigner := extraMeta.isSigner,
           isWritable := extraMeta.isWritable }, previousMetas)
  else
    let ownerStep : Except ResolveError PubKey × List AccountMeta :=
      if extraMeta.discriminator = 1 then
        (.ok transferHookProgramId, previousMetas)
      else
        let accountIndex : Int := (extraMeta.discriminator : Int) - (1 <<< 7)
        let lenRead := readLength previousMetas
        if (lenRead.1 : Int) ≤ accountIndex then
          (.error .accountNotFound, lenRead.2)
        else
          let idxRead := readIndex lenRead.2 accountIndex
          match idxRead.1 with
          | none => (.error .typeError, idxRead.2)
          | some meta => (.ok meta.pubkey, idxRead.2)
    match ownerStep with
    | (.error e, st) => (.error e, st)
    | (.ok programId, st) =>
      let seeds := unpackSeeds extraMeta.addressConfig st instructionData
      let pubkey := findProgramAddressSync seeds programId
      (.ok { pubkey := pubkey,
             isSigner := extraMeta.isSigner,
             isWritable := extraMeta.isWritable }, st)

/-! ## Shared helper lemmas -/

/-- The literal `1 << 7` from the source is 128. -/
theorem one_shl_seven : ((1:Nat) <<< 7) = 128 := by decide

/-- Default value used only to state `List.getD` facts. -/
def dummyAccountMeta : AccountMeta := ⟨[], false, false⟩

/-- The greedy sequence decoder yields one entry per whole 35-byte run. -/
theorem decodeSeqGreedy_length (b : Bytes) :
    (decodeSeqGreedy b).length = b.length / 35 := by
  have key : ∀ n (b : Bytes), b.length ≤ n →
      (decodeSeqGreedy b).length = b.length / 35 := by
    intro n
    induction n with
    | zero =>
      intro b hb
      rw [decodeSeqGreedy]
      rw [dif_neg (by simp only [extraAccountMetaSpan]; omega)]
      simp only [List.length_nil]
      omega
    | succ k ih =>
      intro b hb
      rw [decodeSeqGreedy]
      by_cases h : extraAccountMetaSpan ≤ b.length
      · rw [dif_pos h]
        simp only [List.length_cons,
          ih (b.drop extraAccountMetaSpan)
            (by simp only [List.length_drop, extraAccountMetaSpan]; omega)]
        simp only [List.length_drop, extraAccountMetaSpan] at *
        omega
      · rw [dif_neg h]
        simp only [extraAccountMetaSpan] at h
        simp only [List.length_nil]
        omega
  exact key b.length b le_rfl

/-- An encoded descriptor with a 32-byte config occupies 35 bytes. -/
theorem ExtraAccountMetaLayout.encode_length (m : ExtraAccountMeta)
    (h : m.addressConfig.length = 32) :
    (ExtraAccountMetaLayout.encode m).length = 35 := by
  simp [ExtraAccountMetaLayout.encode, h]

/-- Decoding an encoded descriptor restores it, provided the config blob
has the 32 bytes the layout reserves for it. -/
theorem ExtraAccountMetaLayout.decode_encode (m : ExtraAccountMeta)
    (h : m.addressConfig.length = 32) :
    ExtraAccountMetaLayout.decode (ExtraAccountMetaLayout.encode m) = m := by
  unfold ExtraAccountMetaLayout.decode ExtraAccountMetaLayout.encode
  have h33 : (m.addressConfig ++
      [if m.isSigner then 1 else 0, if m.isWritable then 1 else 0]).getD 32 0
      = (if m.isSigner then 1 else 0) := by
    rw [List.getD_eq_getElem?_getD, List.getElem?_append_right (by omega)]
    simp [h]
  have h34 : (m.addressConfig ++
      [if m.isSigner then 1 else 0, if m.isWritable then 1 else 0]).getD 33 0
      = (if m.isWritable then 1 else 0) := by
    rw [List.getD_eq_getElem?_getD, List.getElem?_append_right (by omega)]
    simp [h]
  cases m with
  | mk d cfg s w =>
    simp only at h h33 h34 ⊢
    congr 1
    · simp [List.take_append_eq_append_take, h]
    · simp only [List.getD_cons_succ, h33]
      cases s <;> simp
    · simp only [List.getD_cons_succ, h34]
      cases w <;> simp

/-- A little-endian `u32` round-trips through the codec, with arbitrary
trailing bytes. -/
theorem decodeU32LE_encodeU32LE (n : Nat) (rest : Bytes)
    (h : n < 4294967296) :
    decodeU32LE (encodeU32LE n ++ rest) = some n := by
  simp only [encodeU32LE, decodeU32LE, List.cons_append, List.nil_append]
  rw [if_pos (by simp)]
  simp only [List.getD_cons_succ, List.getD_cons_zero]
  congr 1
  omega

/-- Dropping the 4-byte count prefix exposes the descriptor bytes. -/
theorem encodeU32LE_append_drop_four (n : Nat) (rest : Bytes) :
    (encodeU32LE n ++ rest).drop 4 = rest := by
  simp [encodeU32LE]

/-- Greedy decoding of concatenated well-formed encodings restores the
descriptor list. -/
theorem decodeSeqGreedy_flatten (ms : List ExtraAccountMeta)
    (h : ∀ m ∈ ms, m.addressConfig.length = 32) :
    decodeSeqGreedy ((ms.map ExtraAccountMetaLayout.encode).flatten) = ms := by
  induction ms with
  | nil =>
    rw [decodeSeqGreedy]
    rw [dif_neg (by simp [extraAccountMetaSpan])]
  | cons m rest ih =>
    have hm : (ExtraAccountMetaLayout.encode m).length = 35 :=
      ExtraAccountMetaLayout.encode_length m (h m (by simp))
    simp only [List.map_cons, List.flatten_cons]
    rw [decodeSeqGreedy]
    rw [dif_pos (by simp [extraAccountMetaSpan, hm])]
    have ht : ((ExtraAccountMetaLayout.encode m ++
        (rest.map ExtraAccountMetaLayout.encode).flatten).take
          extraAccountMetaSpan) = ExtraAccountMetaLayout.encode m := by
      simp only [extraAccountMetaSpan]
      rw [← hm, List.take_left]
    have hd : ((ExtraAccountMetaLayout.encode m ++
        (rest.map ExtraAccountMetaLayout.encode).flatten).drop
          extraAccountMetaSpan) = (rest.map ExtraAccountMetaLayout.encode).flatten := by
      simp only [extraAccountMetaSpan]
      rw [← hm, List.drop_left]
    rw [ht, hd, ih (fun x hx => h x (by simp [hx])),
      ExtraAccountMetaLayout.decode_encode m (h m (by simp))]

/-- Trichotomy of the non-literal branch of `resolveExtraAccountMeta`:
a discriminator below 128 (other than 0 and 1) raises the `TypeError`; a
discriminator of at least 128 raises `TokenTransferHookAccountNotFound`
exactly when `discriminator - 128` is out of range of `previousMetas`,
and otherwise derives under the pubkey stored at that index. -/
theorem resolve_delegated_cases (u : SeedProvider) (f : AddressOracle)
    (m : ExtraAccountMeta) (prev : List AccountMeta) (data : Bytes)
    (pid : PubKey) (h0 : m.discriminator ≠ 0) (h1 : m.discriminator ≠ 1) :
    (m.discriminator < 128 →
      resolveExtraAccountMeta u f m prev data pid = .error .typeError) ∧
    (128 ≤ m.discriminator →
      (prev.length ≤ m.discriminator - 128 →
        resolveExtraAccountMeta u f m prev data pid =
          .error .accountNotFound) ∧
      (m.discriminator - 128 < prev.length →
        resolveExtraAccountMeta u f m prev data pid =
          .ok ⟨f (u m.addressConfig prev data)
                ((prev.getD (m.discriminator - 128) dummyAccountMeta).pubkey),
              m.isSigner, m.isWritable⟩)) := by
  refine ⟨fun hlt => ?_, fun hge => ⟨fun hoob => ?_, fun hin => ?_⟩⟩
  · have hneg : ((m.discriminator : Int) - ((1:Nat) <<< 7 : Nat)) < 0 := by
      rw [one_shl_seven]; omega
    simp only [resolveExtraAccountMeta, if_neg h0, if_neg h1]
    rw [if_neg (by omega)]
    rw [jsIndex, if_pos hneg]
  · simp only [resolveExtraAccountMeta, if_neg h0, if_neg h1]
    rw [if_pos (by rw [one_shl_seven]; omega)]
  · have hnn : (0:Int) ≤ ((m.discriminator : Int) - ((1:Nat) <<< 7 : Nat)) := by
      rw [one_shl_seven]; omega
    simp only [resolveExtraAccountMeta, if_neg h0, if_neg h1]
    rw [if_neg (by rw [one_shl_seven]; omega)]
    rw [jsIndex, if_neg (by omega)]
    have htn : ((m.discriminator : Int) - ((1:Nat) <<< 7 : Nat)).toNat =
        m.discriminator - 128 := by
      rw [one_shl_seven]; omega
    rw [htn, List.getElem?_eq_getElem (by omega)]
    simp only [List.getD_eq_getElem?_getD,
      List.getElem?_eq_getElem (by omega : m.discriminator - 128 < prev.length)]
    rfl

/-! ## Concrete values used by witnesses and counterexamples -/

/-- A concrete seed provider standing in for `unpackSeeds`. -/
def uEx : SeedProvider := fun cfg prev data =>
  [cfg.take 1, data, List.replicate prev.length 9]

/-- A second, different concrete seed provider. -/
def uEx2 : SeedProvider := fun _ _ _ => []

/-- A concrete address oracle standing in for `findProgramAddressSync`. -/
def fEx : AddressOracle := fun seeds owner => owner ++ seeds.flatten

/-- A second, different concrete address oracle. -/
def fEx2 : AddressOracle := fun _ owner => owner

/-- A concrete 32-byte address config. -/
def cfgEx : Bytes := List.replicate 32 7

/-- A concrete hook program id. -/
def pkEx : PubKey := List.replicate 32 2

/-- A concrete previously resolved account reference. -/
def metaEx : AccountMeta := ⟨List.replicate 32 1, false, true⟩

/-- A second concrete resolved account reference. -/
def metaEx2 : AccountMeta := ⟨List.replicate 32 4, true, false⟩

/-- A third concrete resolved account reference. -/
def metaEx3 : AccountMeta := ⟨List.replicate 32 6, false, false⟩

/-- A concrete list of already-resolved references. -/
def prevEx : List AccountMeta := [metaEx, metaEx2, metaEx3]

/-! ## Claims -/

/-- Claim C1, counterexample: for discriminator 2 (so an index of
2 - 128 = -126) the call does not fail with `AccountNotFound` as the
claim states; it fails with the `TypeError` raised by reading `.pubkey`
of the `undefined` produced by the negative array index. -/
theorem resolveExtraAccountMeta_negative_index_cex :
    resolveExtraAccountMeta uEx fEx ⟨2, cfgEx, false, false⟩ [] [] pkEx =
      .error .typeError ∧
    ¬ resolveExtraAccountMeta uEx fEx ⟨2, cfgEx, false, false⟩ [] [] pkEx =
      .error .accountNotFound := by
  have h : resolveExtraAccountMeta uEx fEx ⟨2, cfgEx, false, false⟩ [] [] pkEx
      = .error .typeError := by rfl
  exact ⟨h, by rw [h]; simp⟩

/-- Claim C1 (amended): for every descriptor whose discriminator d is
neither 0 nor 1: when d < 128 (so d - 128 is negative) resolution fails,
but with the `TypeError` from reading `.pubkey` of an `undefined` array
element, not with `AccountNotFound`; when d is at least 128, resolution
fails with `AccountNotFound` exactly if d - 128 is not less than the
number of already-resolved references, and otherwise uses the address of
the already-resolved reference at index d - 128 as the owning program
passed to address derivation. -/
theorem resolveExtraAccountMeta_delegated_owner_spec (u : SeedProvider)
    (f : AddressOracle) (m : ExtraAccountMeta) (prev : List AccountMeta)
    (data : Bytes) (pid : PubKey) (h0 : m.discriminator ≠ 0)
    (h1 : m.discriminator ≠ 1) :
    (m.discriminator < 128 →
      resolveExtraAccountMeta u f m prev data pid = .error .typeError) ∧
    (128 ≤ m.discriminator →
      (prev.length ≤ m.discriminator - 128 →
        resolveExtraAccountMeta u f m prev data pid =
          .error .accountNotFound) ∧
      (m.discriminator - 128 < prev.length →
        resolveExtraAccountMeta u f m prev data pid =
          .ok ⟨f (u m.addressConfig prev data)
                ((prev.getD (m.discriminator - 128) dummyAccountMeta).pubkey),
              m.isSigner, m.isWritable⟩)) :=
  resolve_delegated_cases u f m prev data pid h0 h1

/-- Witness for the amended claim C1: discriminator 129 with one
already-resolved reference (index 1 = its length) yields
`AccountNotFound`. -/
theorem resolveExtraAccountMeta_delegated_owner_spec_witness :
    resolveExtraAccountMeta uEx fEx ⟨129, cfgEx, true, false⟩ [metaEx] []
      pkEx = .error .accountNotFound :=
  ((resolveExtraAccountMeta_delegated_owner_spec uEx fEx
      ⟨129, cfgEx, true, false⟩ [metaEx] [] pkEx (by decide) (by decide)).2
    (by decide)).1 (by decide)

/-- Claim C2: for discriminator 0 the resolved reference carries exactly
the 32 `addressConfig` bytes as its address and the descriptor flags
unchanged, and the result never depends on the seed provider or the
address oracle (no call is made to either). -/
theorem resolveExtraAccountMeta_literal_spec (u v : SeedProvider)
    (f g : AddressOracle) (m : ExtraAccountMeta) (prev : List AccountMeta)
    (data : Bytes) (pid : PubKey) (h : m.discriminator = 0) :
    resolveExtraAccountMeta u f m prev data pid =
      .ok ⟨m.addressConfig, m.isSigner, m.isWritable⟩ ∧
    resolveExtraAccountMeta u f m prev data pid =
      resolveExtraAccountMeta v g m prev data pid := by
  constructor <;> simp [resolveExtraAccountMeta, h]

/-- Witness for claim C2 at a concrete literal descriptor and two
different oracle pairs. -/
theorem resolveExtraAccountMeta_literal_spec_witness :
    resolveExtraAccountMeta uEx fEx ⟨0, cfgEx, false, true⟩ [metaEx] [3]
      pkEx = .ok ⟨cfgEx, false, true⟩ ∧
    resolveExtraAccountMeta uEx fEx ⟨0, cfgEx, false, true⟩ [metaEx] [3]
      pkEx =
    resolveExtraAccountMeta uEx2 fEx2 ⟨0, cfgEx, false, true⟩ [metaEx] [3]
      pkEx :=
  resolveExtraAccountMeta_literal_spec uEx uEx2 fEx fEx2
    ⟨0, cfgEx, false, true⟩ [metaEx] [3] pkEx rfl

/-- Claim C3: for discriminator 1 the address is always derived under the
hook program id: the oracle applied to the seeds unpacked from the
config, the already-resolved references and the instruction data, with
`transferHookProgramId` as owner, whatever the already-resolved list is. -/
theorem resolveExtraAccountMeta_self_derived_spec (u : SeedProvider)
    (f : AddressOracle) (m : ExtraAccountMeta) (prev : List AccountMeta)
    (data : Bytes) (pid : PubKey) (h : m.discriminator = 1) :
    resolveExtraAccountMeta u f m prev data pid =
      .ok ⟨f (u m.addressConfig prev data) pid, m.isSigner, m.isWritable⟩ := by
  simp [resolveExtraAccountMeta, h]

/-- Witness for claim C3 at a concrete descriptor. -/
theorem resolveExtraAccountMeta_self_derived_spec_witness :
    resolveExtraAccountMeta uEx fEx ⟨1, cfgEx, true, true⟩ [metaEx] [3]
      pkEx = .ok ⟨fEx (uEx cfgEx [metaEx] [3]) pkEx, true, true⟩ :=
  resolveExtraAccountMeta_self_derived_spec uEx fEx ⟨1, cfgEx, true, true⟩
    [metaEx] [3] pkEx rfl

/-- Claim C4: decoding any buffer of at least 4 bytes succeeds and yields
exactly floor((length - 4) / 35) descriptors, whatever the declared
count field and the trailing partial bytes are. -/
theorem ExtraAccountMetaListLayout_decode_count (data : Bytes)
    (h : 4 ≤ data.length) :
    ∃ l, ExtraAccountMetaListLayout.decode data = some l ∧
      l.extraAccounts.length = (data.length - 4) / 35 := by
  have hd : decodeU32LE data = some (data.getD 0 0 + data.getD 1 0 * 256 +
      data.getD 2 0 * 65536 + data.getD 3 0 * 16777216) := by
    unfold decodeU32LE
    rw [if_pos h]
  refine ⟨⟨data.getD 0 0 + data.getD 1 0 * 256 + data.getD 2 0 * 65536 +
    data.getD 3 0 * 16777216, decodeSeqGreedy (data.drop 4)⟩, ?_, ?_⟩
  · unfold ExtraAccountMetaListLayout.decode
    rw [hd]
  · simp only [decodeSeqGreedy_length, List.length_drop]

/-- Witness for claim C4: a 41-byte buffer (4-byte count, one whole
entry, 2 stray bytes) decodes to exactly one descriptor. -/
theorem ExtraAccountMetaListLayout_decode_count_witness :
    ∃ l, ExtraAccountMetaListLayout.decode
        ([9, 0, 0, 0] ++ List.replicate 37 5) = some l ∧
      l.extraAccounts.length =
        (([9, 0, 0, 0] ++ List.replicate 37 5).length - 4) / 35 :=
  ExtraAccountMetaListLayout_decode_count ([9, 0, 0, 0] ++ List.replicate 37 5)
    (by decide)

/-- Claim C5: encoding a well-formed in-memory descriptor list and then
decoding the produced bytes restores both the descriptor sequence and
the original count field. -/
theorem ExtraAccountMetaListLayout_roundtrip (l : ExtraAccountMetaList)
    (h : l.wellFormed) :
    ExtraAccountMetaListLayout.decode (ExtraAccountMetaListLayout.encode l) =
      some l := by
  obtain ⟨hc, hm⟩ := h
  unfold ExtraAccountMetaListLayout.decode ExtraAccountMetaListLayout.encode
  rw [decodeU32LE_encodeU32LE l.count _ hc, encodeU32LE_append_drop_four,
    decodeSeqGreedy_flatten l.extraAccounts (fun m hmem => (hm m hmem).2.1)]

/-- Witness for claim C5 on a concrete two-descriptor list with an
advisory count of 9. -/
theorem ExtraAccountMetaListLayout_roundtrip_witness :
    ExtraAccountMetaListLayout.decode (ExtraAccountMetaListLayout.encode
        ⟨9, [⟨0, cfgEx, true, false⟩, ⟨200, List.replicate 32 3, false, true⟩]⟩) =
      some ⟨9, [⟨0, cfgEx, true, false⟩, ⟨200, List.replicate 32 3, false, true⟩]⟩ :=
  ExtraAccountMetaListLayout_roundtrip
    ⟨9, [⟨0, cfgEx, true, false⟩, ⟨200, List.replicate 32 3, false, true⟩]⟩
    (by decide)

/-- Claim C6: one encoded descriptor occupies exactly 35 bytes, with the
discriminator at offset 0, the 32 config bytes at offsets 1..32, the
signer byte at offset 33 and the writable byte at offset 34, and
decoding from those positions restores the descriptor. -/
theorem ExtraAccountMetaLayout_field_positions (m : ExtraAccountMeta)
    (h : m.addressConfig.length = 32) :
    (ExtraAccountMetaLayout.encode m).length = 35 ∧
    (ExtraAccountMetaLayout.encode m).getD 0 0 = m.discriminator ∧
    ((ExtraAccountMetaLayout.encode m).drop 1).take 32 = m.addressConfig ∧
    (ExtraAccountMetaLayout.encode m).getD 33 0 =
      (if m.isSigner then 1 else 0) ∧
    (ExtraAccountMetaLayout.encode m).getD 34 0 =
      (if m.isWritable then 1 else 0) ∧
    ExtraAccountMetaLayout.decode (ExtraAccountMetaLayout.encode m) = m := by
  refine ⟨ExtraAccountMetaLayout.encode_length m h, rfl, ?_, ?_, ?_,
    ExtraAccountMetaLayout.decode_encode m h⟩
  · simp [ExtraAccountMetaLayout.encode, List.take_append_eq_append_take, h]
  · simp only [ExtraAccountMetaLayout.encode, List.getD_cons_succ]
    rw [List.getD_eq_getElem?_getD, List.getElem?_append_right (by omega)]
    simp [h]
  · simp only [ExtraAccountMetaLayout.encode, List.getD_cons_succ]
    rw [List.getD_eq_getElem?_getD, List.getElem?_append_right (by omega)]
    simp [h]

/-- Witness for claim C6 at a concrete descriptor. -/
theorem ExtraAccountMetaLayout_field_positions_witness :
    (ExtraAccountMetaLayout.encode ⟨5, cfgEx, true, false⟩).length = 35 ∧
    (ExtraAccountMetaLayout.encode ⟨5, cfgEx, true, false⟩).getD 0 0 = 5 ∧
    ((ExtraAccountMetaLayout.encode ⟨5, cfgEx, true, false⟩).drop 1).take 32 =
      cfgEx ∧
    (ExtraAccountMetaLayout.encode ⟨5, cfgEx, true, false⟩).getD 33 0 = 1 ∧
    (ExtraAccountMetaLayout.encode ⟨5, cfgEx, true, false⟩).getD 34 0 = 0 ∧
    ExtraAccountMetaLayout.decode
        (ExtraAccountMetaLayout.encode ⟨5, cfgEx, true, false⟩) =
      ⟨5, cfgEx, true, false⟩ :=
  ExtraAccountMetaLayout_field_positions ⟨5, cfgEx, true, false⟩ (by decide)

/-- Claim C7: the config-account address for a hook program and a mint is
the address oracle applied to the two seeds [UTF-8 bytes of the literal
tag, raw mint bytes] with the hook program as owner; being a plain
function of its arguments it is pure and deterministic, and it has no
failure path of its own. -/
theorem getExtraAccountMetaAccount_spec (f : AddressOracle)
    (programId mint : PubKey) :
    getExtraAccountMetaAccount f programId mint =
      f ["extra-account-metas".data.map Char.toNat, mint] programId := by
  have h : "extra-account-metas".data.map Char.toNat = extraAccountMetasSeed := by
    decide
  rw [getExtraAccountMetaAccount, h]

/-- Claim C8: the state-passing embedding of `resolveExtraAccountMeta`
returns the `previousMetas` array unchanged on every path, succeeding or
failing, and computes the same result as the plain embedding. -/
theorem resolveExtraAccountMetaSt_frame (u : SeedProvider)
    (f : AddressOracle) (m : ExtraAccountMeta) (prev : List AccountMeta)
    (data : Bytes) (pid : PubKey) :
    (resolveExtraAccountMetaSt u f m prev data pid).2 = prev ∧
    (resolveExtraAccountMetaSt u f m prev data pid).1 =
      resolveExtraAccountMeta u f m prev data pid := by
  by_cases h0 : m.discriminator = 0
  · simp [resolveExtraAccountMetaSt, resolveExtraAccountMeta, h0]
  · by_cases h1 : m.discriminator = 1
    · simp [resolveExtraAccountMetaSt, resolveExtraAccountMeta, h0, h1]
    · by_cases h2 : ((prev.length : Int) ≤ (m.discriminator : Int) - 128)
      · simp [resolveExtraAccountMetaSt, resolveExtraAccountMeta, readLength,
          h0, h1, h2]
      · cases hj : jsIndex prev ((m.discriminator : Int) - 128) with
        | none =>
          simp [resolveExtraAccountMetaSt, resolveExtraAccountMeta,
            readLength, readIndex, h0, h1, h2, hj]
        | some a =>
          simp [resolveExtraAccountMetaSt, resolveExtraAccountMeta,
            readLength, readIndex, h0, h1, h2, hj]

/-- Claim C9: whenever resolution returns a reference, its signer and
writable flags are those of the input descriptor, for every
discriminator. -/
theorem resolveExtraAccountMeta_preserves_flags (u : SeedProvider)
    (f : AddressOracle) (m : ExtraAccountMeta) (prev : List AccountMeta)
    (data : Bytes) (pid : PubKey) (r : AccountMeta)
    (h : resolveExtraAccountMeta u f m prev data pid = .ok r) :
    r.isSigner = m.isSigner ∧ r.isWritable = m.isWritable := by
  by_cases h0 : m.discriminator = 0
  · simp only [resolveExtraAccountMeta, if_pos h0, Except.ok.injEq] at h
    rw [← h]
    exact ⟨rfl, rfl⟩
  · simp only [resolveExtraAccountMeta, if_neg h0] at h
    split at h
    · simp at h
    · simp only [Except.ok.injEq] at h
      rw [← h]
      exact ⟨rfl, rfl⟩

/-- Witness for claim C9 at a concrete self-derived descriptor. -/
theorem resolveExtraAccountMeta_preserves_flags_witness :
    (AccountMeta.mk (fEx (uEx cfgEx [metaEx] [3]) pkEx) true true).isSigner =
      (ExtraAccountMeta.mk 1 cfgEx true true).isSigner ∧
    (AccountMeta.mk (fEx (uEx cfgEx [metaEx] [3]) pkEx) true true).isWritable =
      (ExtraAccountMeta.mk 1 cfgEx true true).isWritable :=
  resolveExtraAccountMeta_preserves_flags uEx fEx ⟨1, cfgEx, true, true⟩
    [metaEx] [3] pkEx ⟨fEx (uEx cfgEx [metaEx] [3]) pkEx, true, true⟩ (by rfl)

/-- Claim C10: with a discriminator in the byte range and at least 128, a
successful resolution forces the index d - 128 below 128 and inside the
already-resolved list, and the owning program of the derivation is the
pubkey of an entry among the first 128 already-resolved references. -/
theorem resolveExtraAccountMeta_owner_index_bound (u : SeedProvider)
    (f : AddressOracle) (m : ExtraAccountMeta) (prev : List AccountMeta)
    (data : Bytes) (pid : PubKey) (r : AccountMeta)
    (h128 : 128 ≤ m.discriminator) (h256 : m.discriminator < 256)
    (h : resolveExtraAccountMeta u f m prev data pid = .ok r) :
    m.discriminator - 128 < 128 ∧ m.discriminator - 128 < prev.length ∧
    r.pubkey = f (u m.addressConfig prev data)
      (((prev.take 128).getD (m.discriminator - 128) dummyAccountMeta).pubkey) := by
  have h0 : m.discriminator ≠ 0 := by omega
  have h1 : m.discriminator ≠ 1 := by omega
  have hcases := resolve_delegated_cases u f m prev data pid h0 h1
  by_cases hin : m.discriminator - 128 < prev.length
  · have hok := (hcases.2 h128).2 hin
    rw [h] at hok
    have hr := Except.ok.inj hok
    refine ⟨by omega, hin, ?_⟩
    have htake : (prev.take 128).getD (m.discriminator - 128) dummyAccountMeta =
        prev.getD (m.discriminator - 128) dummyAccountMeta := by
      rw [List.getD_eq_getElem?_getD, List.getD_eq_getElem?_getD,
        List.getElem?_take, if_pos (by omega : m.discriminator - 128 < 128)]
    rw [hr, htake]
  · have hbad := (hcases.2 h128).1 (by omega)
    rw [h] at hbad
    simp at hbad

/-- Witness for claim C10: discriminator 130 against three resolved
references takes the third pubkey as owning program. -/
theorem resolveExtraAccountMeta_owner_index_bound_witness :
    130 - 128 < 128 ∧ 130 - 128 < prevEx.length ∧
    (AccountMeta.mk (fEx (uEx cfgEx prevEx [4]) metaEx3.pubkey) true
        false).pubkey =
      fEx (uEx cfgEx prevEx [4])
        (((prevEx.take 128).getD (130 - 128) dummyAccountMeta).pubkey) :=
  resolveExtraAccountMeta_owner_index_bound uEx fEx ⟨130, cfgEx, true, false⟩
    prevEx [4] pkEx ⟨fEx (uEx cfgEx prevEx [4]) metaEx3.pubkey, true, false⟩
    (by decide) (by decide) (by rfl)

end SplTransferHook
